import Mathlib

/-!
Verification of the tracking-and-forecasting core (SORT-like tracker and
trajectory predictor) against its specification.  The Python source is
shallowly embedded over `ℚ` (IEEE doubles are rationals; exact rational
arithmetic replaces floating point, and float round-off is outside the
model).  Wall-clock timestamps (`time.time()`) are modelled as rational
inputs threaded through the operations.
-/

namespace MTS

/-- An axis-aligned bounding box `(x1, y1, x2, y2)` in frame coordinates. -/
structure Box where
  x1 : ℚ
  y1 : ℚ
  x2 : ℚ
  y2 : ℚ
deriving DecidableEq, Repr

/-- `ObjectTracker._calculate_iou`: intersection over union of two boxes. -/
def calculate_iou (bbox1 bbox2 : Box) : ℚ :=
  let x1_i := max bbox1.x1 bbox2.x1
  let y1_i := max bbox1.y1 bbox2.y1
  let x2_i := min bbox1.x2 bbox2.x2
  let y2_i := min bbox1.y2 bbox2.y2
  if x2_i ≤ x1_i ∨ y2_i ≤ y1_i then 0
  else
    let intersection := (x2_i - x1_i) * (y2_i - y1_i)
    let area1 := (bbox1.x2 - bbox1.x1) * (bbox1.y2 - bbox1.y1)
    let area2 := (bbox2.x2 - bbox2.x1) * (bbox2.y2 - bbox2.y1)
    let union := area1 + area2 - intersection
    if 0 < union then intersection / union else 0

/-- A point lying strictly inside a box (interior membership); two boxes
overlap when some point is inside both. -/
def insideBox (p : ℚ × ℚ) (b : Box) : Prop :=
  b.x1 < p.1 ∧ p.1 < b.x2 ∧ b.y1 < p.2 ∧ p.2 < b.y2

/-- A detection produced by the external detector. -/
structure Detection where
  bbox : Box
  confidence : ℚ
  class_id : ℤ
  center : ℚ × ℚ
deriving DecidableEq, Repr

abbrev Mat (n m : ℕ) := Matrix (Fin n) (Fin m) ℚ

/-- `KalmanFilter`: 4-state (x, y, vx, vy) constant-velocity filter. -/
structure KalmanFilter where
  state : Fin 4 → ℚ
  covariance : Mat 4 4
deriving DecidableEq

/-- State transition matrix `F` (constant-velocity model). -/
def Fmat : Mat 4 4 := !![1, 0, 1, 0; 0, 1, 0, 1; 0, 0, 1, 0; 0, 0, 0, 1]

/-- Measurement matrix `H` (observes position only). -/
def Hmat : Mat 2 4 := !![1, 0, 0, 0; 0, 1, 0, 0]

/-- Process noise `Q = 0.1·I`. -/
def Qmat : Mat 4 4 := (1 / 10 : ℚ) • 1

/-- Measurement noise `R = I`. -/
def Rmat : Mat 2 2 := 1

/-- `KalmanFilter.__init__` at initial position `p`, velocity (0,0),
covariance `1000·I`. -/
def KalmanFilter.init (p : ℚ × ℚ) : KalmanFilter :=
  { state := ![p.1, p.2, 0, 0], covariance := (1000 : ℚ) • 1 }

/-- `KalmanFilter.predict`: time update; also returns the position part. -/
def KalmanFilter.predict (kf : KalmanFilter) : KalmanFilter × (ℚ × ℚ) :=
  let st := Fmat.mulVec kf.state
  ({ state := st, covariance := Fmat * kf.covariance * Fmat.transpose + Qmat },
   (st 0, st 1))

/-- 2×2 matrix inverse by the adjugate formula, modelling `np.linalg.inv`
(which raises on a singular input; there `1/0 = 0` makes this return junk,
unreachable in the claims below). -/
def inv2 (S : Mat 2 2) : Mat 2 2 :=
  let d := S 0 0 * S 1 1 - S 0 1 * S 1 0
  (1 / d) • !![S 1 1, -(S 0 1); -(S 1 0), S 0 0]

/-- `KalmanFilter.update`: measurement update with observed position `z`. -/
def KalmanFilter.update (kf : KalmanFilter) (z : ℚ × ℚ) : KalmanFilter :=
  let y : Fin 2 → ℚ := ![z.1, z.2] - Hmat.mulVec kf.state
  let S := Hmat * kf.covariance * Hmat.transpose + Rmat
  let K := kf.covariance * Hmat.transpose * inv2 S
  { state := kf.state + K.mulVec y,
    covariance := (1 - K * Hmat) * kf.covariance }

/-- One entry of a track's history. -/
structure HistEntry where
  position : ℚ × ℚ
  timestamp : ℚ
  bbox : Box
deriving DecidableEq, Repr

/-- `Track`: one tracked object. -/
structure Track where
  id : ℕ
  kalman : KalmanFilter
  age : ℕ
  hits : ℕ
  hit_streak : ℕ
  time_since_update : ℕ
  history : List HistEntry
  bbox : Box
  confidence : ℚ
  last_update : ℚ
deriving DecidableEq

/-- `Track.__init__` (the rational `now` models `time.time()`). -/
def Track.init (detection : Detection) (track_id : ℕ) (now : ℚ) : Track :=
  { id := track_id
    kalman := KalmanFilter.init detection.center
    age := 0
    hits := 1
    hit_streak := 1
    time_since_update := 0
    history := []
    bbox := detection.bbox
    confidence := detection.confidence
    last_update := now }

/-- `Track.predict`: advance the filter and the age counters. -/
def Track.predict (tr : Track) : Track × (ℚ × ℚ) :=
  let p := tr.kalman.predict
  ({ tr with
      kalman := p.1
      age := tr.age + 1
      time_since_update := tr.time_since_update + 1 }, p.2)

/-- `Track.update`: apply a matched detection at wall-clock time `now`. -/
def Track.update (tr : Track) (detection : Detection) (now : ℚ) : Track :=
  let history1 := tr.history ++ [⟨detection.center, now, detection.bbox⟩]
  { tr with
    kalman := tr.kalman.update detection.center
    hits := tr.hits + 1
    hit_streak := tr.hit_streak + 1
    time_since_update := 0
    bbox := detection.bbox
    confidence := detection.confidence
    last_update := now
    history := if 30 < history1.length then history1.drop 1 else history1 }

/-- The snapshot record returned by `Track.get_state`. -/
structure Snapshot where
  id : ℕ
  bbox : Box
  center : ℚ × ℚ
  velocity : ℚ × ℚ
  confidence : ℚ
  age : ℕ
  hits : ℕ
  history : List HistEntry
  last_update : ℚ
deriving DecidableEq

/-- `Track.get_state`. -/
def Track.get_state (tr : Track) : Snapshot :=
  { id := tr.id
    bbox := tr.bbox
    center := (tr.kalman.state 0, tr.kalman.state 1)
    velocity := (tr.kalman.state 2, tr.kalman.state 3)
    confidence := tr.confidence
    age := tr.age
    hits := tr.hits
    history := tr.history
    last_update := tr.last_update }

/-- All injective sequences of `k` distinct values drawn from `avail`. -/
def injSeqs (avail : List ℕ) : ℕ → List (List ℕ)
  | 0 => [[]]
  | k + 1 => avail.flatMap fun a => (injSeqs (avail.erase a) k).map (a :: ·)

/-- Total cost of a list of assignment pairs. -/
def pairsTotal (cost : ℕ → ℕ → ℚ) (ps : List (ℕ × ℕ)) : ℚ :=
  (ps.map fun p => cost p.1 p.2).sum

/-- First maximizer of `f` among the candidates. -/
def argmaxBy (f : List (ℕ × ℕ) → ℚ) : List (List (ℕ × ℕ)) → List (ℕ × ℕ)
  | [] => []
  | c :: cs => cs.foldl (fun best x => if f best < f x then x else best) c

/-- Model of `scipy.optimize.linear_sum_assignment` applied to the negated
IoU matrix: an optimal assignment pairing every index of the smaller side
with a distinct index of the larger side so as to maximize the total cost
(the library leaves ties between optimal assignments unspecified; this
model takes the first in enumeration order). -/
def linear_sum_assignment (cost : ℕ → ℕ → ℚ) (nrows ncols : ℕ) : List (ℕ × ℕ) :=
  let cands :=
    if nrows ≤ ncols then
      (injSeqs (List.range ncols) nrows).map fun l => (List.range nrows).zip l
    else
      (injSeqs (List.range nrows) ncols).map fun l => l.zip (List.range ncols)
  argmaxBy (pairsTotal cost) cands

def defaultBox : Box := ⟨0, 0, 0, 0⟩

/-- IoU matrix entry `iou_matrix[t, d]` of the association step. -/
def assocCost (detections : List Detection) (tracks : List Track) (t d : ℕ) : ℚ :=
  calculate_iou ((tracks.map Track.bbox).getD t defaultBox)
    ((detections.map Detection.bbox).getD d defaultBox)

def iou_threshold : ℚ := 3 / 10

/-- The optimal assignment computed inside
`ObjectTracker._associate_detections_to_tracks`. -/
def assocAssignment (detections : List Detection) (tracks : List Track) :
    List (ℕ × ℕ) :=
  linear_sum_assignment (assocCost detections tracks) tracks.length detections.length

/-- `ObjectTracker._associate_detections_to_tracks`: (matched
(track, detection) index pairs, unmatched detection indices, unmatched
track indices). -/
def associate (detections : List Detection) (tracks : List Track) :
    List (ℕ × ℕ) × List ℕ × List ℕ :=
  if tracks.length = 0 then
    ([], List.range detections.length, [])
  else if detections.length = 0 then
    ([], [], List.range tracks.length)
  else if 0 < min tracks.length detections.length then
    let matched_indices := assocAssignment detections tracks
    let matched := matched_indices.filter fun p =>
      iou_threshold < assocCost detections tracks p.1 p.2
    let unmatched_detections := (List.range detections.length).filter fun d =>
      ! (matched_indices.map Prod.snd).contains d
    let unmatched_tracks := (List.range tracks.length).filter fun t =>
      ! (matched_indices.map Prod.fst).contains t
    (matched, unmatched_detections, unmatched_tracks)
  else
    ([], List.range detections.length, List.range tracks.length)

/-- `ObjectTracker` mutable state: the active tracks and the next fresh id. -/
structure TrackerState where
  tracks : List Track
  next_id : ℕ
deriving DecidableEq

/-- `ObjectTracker.__init__`. -/
def tracker_init : TrackerState := { tracks := [], next_id := 1 }

def max_age : ℕ := 30
def min_hits : ℕ := 3

def defaultDetection : Detection := ⟨defaultBox, 0, 0, (0, 0)⟩

/-- In-place element update `self.tracks[i].update(...)`. -/
def setAt : List Track → ℕ → (Track → Track) → List Track
  | [], _, _ => []
  | x :: xs, 0, f => f x :: xs
  | x :: xs, n + 1, f => x :: setAt xs n f

/-- Apply the measurement updates of all matched (track, detection) pairs. -/
def applyMatches (detections : List Detection) (now : ℚ)
    (matched : List (ℕ × ℕ)) (tracks : List Track) : List Track :=
  matched.foldl
    (fun ts p => setAt ts p.1 fun tr => tr.update (detections.getD p.2 defaultDetection) now)
    tracks

/-- Create the new tracks for the unmatched detections, consuming ids
sequentially from `next_id` upward. -/
def spawnTracks (detections : List Detection) (now : ℚ) :
    List ℕ → ℕ → List Track × ℕ
  | [], nid => ([], nid)
  | d :: rest, nid =>
    let tr := Track.init (detections.getD d defaultDetection) nid now
    let p := spawnTracks detections now rest (nid + 1)
    (tr :: p.1, p.2)

/-- `ObjectTracker.update`: one invocation on a detection batch at
wall-clock time `now`; returns the new state and the returned mapping
(id, snapshot) of confirmed tracks. -/
def tracker_update (s : TrackerState) (detections : List Detection) (now : ℚ) :
    TrackerState × List (ℕ × Snapshot) :=
  let predicted := s.tracks.map fun tr => (tr.predict).1
  let assoc := associate detections predicted
  let updated := applyMatches detections now assoc.1 predicted
  let spawned := spawnTracks detections now assoc.2.1 s.next_id
  let kept := (updated ++ spawned.1).filter fun tr => tr.time_since_update < max_age
  let confirmed := (kept.filter fun tr => min_hits ≤ tr.hits).map
    fun tr => (tr.id, tr.get_state)
  ({ tracks := kept, next_id := spawned.2 }, confirmed)

/-- A sequence of tracker invocations (detection batch, wall-clock time). -/
def tracker_run (s : TrackerState) : List (List Detection × ℚ) → TrackerState
  | [] => s
  | (dets, now) :: rest => tracker_run (tracker_update s dets now).1 rest

/-- `TrajectoryPredictor.prediction_time`: forecast horizon (seconds). -/
def prediction_time : ℚ := 5

/-- `TrajectoryPredictor.min_history_points`. -/
def min_history_points : ℕ := 5

/-- `TrajectoryPredictor.frame_bounds` default: (width, height). -/
def frame_bounds : ℚ × ℚ := (1280, 720)

/-- The `method` tag of a prediction result. -/
inductive Method where
  | linear
  | kalman
  | combined
deriving DecidableEq, Repr

/-- Finite or infinite time-to-impact.  `TTI.sqrtVal q` denotes the real
number `√q`: the value `distance / speed` produced by the fallback branch
of `_calculate_time_to_impact`, the only branch whose value is in general
irrational (it equals `√((dx² + dy²) / (vx² + vy²))`). -/
inductive TTI where
  | val (t : ℚ)
  | sqrtVal (t : ℚ)
  | inf
deriving DecidableEq, Repr

/-- `TrajectoryPredictor._calculate_impact_point` over frame bounds `fb`. -/
def calculate_impact_point (fb : ℚ × ℚ) (position velocity : ℚ × ℚ) : ℚ × ℚ :=
  let x := position.1
  let y := position.2
  let vx := velocity.1
  let vy := velocity.2
  if |vx| < 1 / 1000000 ∧ |vy| < 1 / 1000000 then position
  else
    let i_left : List (ℚ × ℚ × ℚ) :=
      if vx < 0 then
        let t := -x / vx
        let y_int := y + vy * t
        if 0 ≤ y_int ∧ y_int ≤ fb.2 then [(0, y_int, t)] else []
      else []
    let i_right : List (ℚ × ℚ × ℚ) :=
      if 0 < vx then
        let t := (fb.1 - x) / vx
        let y_int := y + vy * t
        if 0 ≤ y_int ∧ y_int ≤ fb.2 then [(fb.1, y_int, t)] else []
      else []
    let i_top : List (ℚ × ℚ × ℚ) :=
      if vy < 0 then
        let t := -y / vy
        let x_int := x + vx * t
        if 0 ≤ x_int ∧ x_int ≤ fb.1 then [(x_int, 0, t)] else []
      else []
    let i_bottom : List (ℚ × ℚ × ℚ) :=
      if 0 < vy then
        let t := (fb.2 - y) / vy
        let x_int := x + vx * t
        if 0 ≤ x_int ∧ x_int ≤ fb.1 then [(x_int, fb.2, t)] else []
      else []
    let intersections := i_left ++ i_right ++ i_top ++ i_bottom
    let sorted := intersections.mergeSort fun a b => decide (a.2.2 ≤ b.2.2)
    match sorted.find? fun c => decide (0 < c.2.2) with
    | some c => (c.1, c.2.1)
    | none => (x + vx * 2, y + vy * 2)

/-- `TrajectoryPredictor._calculate_time_to_impact`.  The python guard
`speed > 1e-6` is `speed² > 1e-12` (both sides nonnegative), and the
fallback value `distance / speed` is `√(dist_sq / speed_sq)`, encoded
as `TTI.sqrtVal`. -/
def calculate_time_to_impact (position velocity impact_point : ℚ × ℚ) : TTI :=
  let dx := impact_point.1 - position.1
  let dy := impact_point.2 - position.2
  let fallback :=
    let dist_sq := dx ^ 2 + dy ^ 2
    let speed_sq := velocity.1 ^ 2 + velocity.2 ^ 2
    if 1 / 10 ^ 12 < speed_sq then TTI.sqrtVal (dist_sq / speed_sq) else TTI.inf
  if |velocity.2| < |velocity.1| then
    if 1 / 1000000 < |velocity.1| then TTI.val (dx / velocity.1) else fallback
  else
    if 1 / 1000000 < |velocity.2| then TTI.val (dy / velocity.2) else fallback

/-- A successful prediction record.  The source stores the scalar
`speed = √speed_sq`; the square is kept so the field stays rational (no
claim inspects the speed). -/
structure Pred where
  method : Method
  trajectory : List (ℚ × ℚ)
  velocity : ℚ × ℚ
  speed_sq : ℚ
  impact_point : ℚ × ℚ
  time_to_impact : TTI
  confidence : ℚ
deriving DecidableEq, Repr

/-- A prediction result: `{status: insufficient_data}` or a success
record. -/
inductive PredResult where
  | insufficient_data
  | success (p : Pred)
deriving DecidableEq, Repr

/-- Ordinary-least-squares slope of `ys` against `xs`, the slope returned
by `scipy.stats.linregress` (that routine raises when all the `xs`
coincide; the division by a zero variance yielding 0 here is unreachable
in the claims below). -/
def olsSlope (xs ys : List ℚ) : ℚ :=
  let n : ℚ := xs.length
  let mx := xs.sum / n
  let my := ys.sum / n
  let cov := ((xs.zip ys).map fun p => (p.1 - mx) * (p.2 - my)).sum
  let vx := (xs.map fun a => (a - mx) ^ 2).sum
  cov / vx

/-- Ordinary-least-squares intercept, as returned by
`scipy.stats.linregress`. -/
def olsIntercept (xs ys : List ℚ) : ℚ :=
  let n : ℚ := xs.length
  ys.sum / n - olsSlope xs ys * (xs.sum / n)

/-- `TrajectoryPredictor._linear_prediction`.  The Pearson correlations
`r_x`, `r_y` also returned by `scipy.stats.linregress` are in general
irrational; they enter only through the confidence `min(|r_x|, |r_y|)`
and are taken as inputs (the floating-point values the library
returned). -/
def linear_prediction (fb : ℚ × ℚ) (positions : List (ℚ × ℚ))
    (timestamps : List ℚ) (r_x r_y : ℚ) : PredResult :=
  if positions.length < 3 then PredResult.insufficient_data
  else
    let t0 := timestamps.headD 0
    let dt := timestamps.map fun t => t - t0
    let slope_x := olsSlope dt (positions.map Prod.fst)
    let intercept_x := olsIntercept dt (positions.map Prod.fst)
    let slope_y := olsSlope dt (positions.map Prod.snd)
    let intercept_y := olsIntercept dt (positions.map Prod.snd)
    let current_time := timestamps.getLastD 0 - t0
    let trajectory := (List.range 50).map fun k =>
      let t := current_time + (k : ℚ) / 10
      (slope_x * t + intercept_x, slope_y * t + intercept_y)
    let velocity := (slope_x, slope_y)
    let lastPos := positions.getLastD (0, 0)
    let impact_point := calculate_impact_point fb lastPos velocity
    let time_to_impact := calculate_time_to_impact lastPos velocity impact_point
    PredResult.success
      { method := Method.linear
        trajectory := trajectory
        velocity := velocity
        speed_sq := slope_x ^ 2 + slope_y ^ 2
        impact_point := impact_point
        time_to_impact := time_to_impact
        confidence := min |r_x| |r_y| }

/-- `TrajectoryPredictor._kalman_prediction`: constant-velocity
extrapolation of the track's current filtered state. -/
def kalman_prediction (fb : ℚ × ℚ) (track : Snapshot) : PredResult :=
  let velocity := track.velocity
  let position := track.center
  let trajectory := (List.range 50).map fun k =>
    (position.1 + velocity.1 * ((k : ℚ) / 10),
     position.2 + velocity.2 * ((k : ℚ) / 10))
  let impact_point := calculate_impact_point fb position velocity
  let time_to_impact := calculate_time_to_impact position velocity impact_point
  PredResult.success
    { method := Method.kalman
      trajectory := trajectory
      velocity := velocity
      speed_sq := velocity.1 ^ 2 + velocity.2 ^ 2
      impact_point := impact_point
      time_to_impact := time_to_impact
      confidence := 4 / 5 }

/-- `TrajectoryPredictor._combine_predictions`. -/
def combine_predictions (linear_pred kalman_pred : PredResult) : PredResult :=
  match linear_pred with
  | PredResult.insufficient_data => kalman_pred
  | PredResult.success l =>
    match kalman_pred with
    | PredResult.insufficient_data => PredResult.success l
    | PredResult.success k =>
      let total_weight := l.confidence + k.confidence
      if total_weight = 0 then PredResult.success k
      else
        let w_linear := l.confidence / total_weight
        let w_kalman := k.confidence / total_weight
        let combined_velocity :=
          (w_linear * l.velocity.1 + w_kalman * k.velocity.1,
           w_linear * l.velocity.2 + w_kalman * k.velocity.2)
        PredResult.success
          { method := Method.combined
            trajectory := (l.trajectory.zip k.trajectory).map fun p =>
              (w_linear * p.1.1 + w_kalman * p.2.1,
               w_linear * p.1.2 + w_kalman * p.2.2)
            velocity := combined_velocity
            speed_sq := combined_velocity.1 ^ 2 + combined_velocity.2 ^ 2
            impact_point := if w_kalman < w_linear then l.impact_point else k.impact_point
            time_to_impact := if w_kalman < w_linear then l.time_to_impact else k.time_to_impact
            confidence := w_linear * l.confidence + w_kalman * k.confidence }

/-- `TrajectoryPredictor.predict_trajectory`. -/
def predict_trajectory (fb : ℚ × ℚ) (track : Snapshot) (r_x r_y : ℚ) : PredResult :=
  if track.history.length < min_history_points then PredResult.insufficient_data
  else
    let positions := track.history.map HistEntry.position
    let timestamps := track.history.map HistEntry.timestamp
    let linear_pred := linear_prediction fb positions timestamps r_x r_y
    let kalman_pred := kalman_prediction fb track
    combine_predictions linear_pred kalman_pred

/-- A sample detection with box (0,0,1,1), used to instantiate theorems. -/
def sampleDetA : Detection := ⟨⟨0, 0, 1, 1⟩, 8 / 10, 0, (1 / 2, 1 / 2)⟩

/-- A sample detection with box (2,2,3,3), disjoint from `sampleDetA`. -/
def sampleDetB : Detection := ⟨⟨2, 2, 3, 3⟩, 8 / 10, 0, (5 / 2, 5 / 2)⟩

/-- A tracker state holding one track born from `sampleDetA`. -/
def sampleState : TrackerState := ⟨[Track.init sampleDetA 1 0], 2⟩

/-- The predicted tracks of `sampleState` at the association step. -/
def samplePredicted : List Track := sampleState.tracks.map fun tr => (tr.predict).1

/-- A sample snapshot with 5 history entries. -/
def sampleSnap : Snapshot :=
  { id := 1
    bbox := ⟨0, 0, 1, 1⟩
    center := (5, 5)
    velocity := (1, 0)
    confidence := 1
    age := 5
    hits := 5
    history := [⟨(1, 1), 1, ⟨0, 0, 1, 1⟩⟩, ⟨(2, 1), 2, ⟨0, 0, 1, 1⟩⟩,
                ⟨(3, 1), 3, ⟨0, 0, 1, 1⟩⟩, ⟨(4, 1), 4, ⟨0, 0, 1, 1⟩⟩,
                ⟨(5, 1), 5, ⟨0, 0, 1, 1⟩⟩]
    last_update := 5 }

/-- A sample successful linear-forecast record. -/
def samplePredL : Pred := ⟨Method.linear, [], (1, 0), 1, (50, 60), TTI.val 2, 9 / 10⟩

/-- A sample successful constant-velocity-forecast record. -/
def samplePredK : Pred := ⟨Method.kalman, [], (2, 0), 4, (70, 80), TTI.val 3, 4 / 5⟩

/-! ### Supporting lemmas about the tracker state machine -/

lemma spawnTracks_snd (dets : List Detection) (now : ℚ) :
    ∀ (idxs : List ℕ) (nid : ℕ),
      (spawnTracks dets now idxs nid).2 = nid + idxs.length := by
  intro idxs
  induction idxs with
  | nil => intro nid; simp [spawnTracks]
  | cons d rest ih =>
    intro nid
    simp only [spawnTracks, ih, List.length_cons]
    omega

lemma spawnTracks_mem_id (dets : List Detection) (now : ℚ) :
    ∀ (idxs : List ℕ) (nid : ℕ) (tr : Track),
      tr ∈ (spawnTracks dets now idxs nid).1 →
      nid ≤ tr.id ∧ tr.id < nid + idxs.length := by
  intro idxs
  induction idxs with
  | nil => intro nid tr h; simp [spawnTracks] at h
  | cons d rest ih =>
    intro nid tr h
    simp only [spawnTracks, List.mem_cons] at h
    rcases h with h | h
    · subst h
      simp only [Track.init, List.length_cons]
      omega
    · have := ih (nid + 1) tr h
      simp only [List.length_cons]
      omega

lemma setAt_map_id (f : Track → Track) (hf : ∀ x, (f x).id = x.id) :
    ∀ (ts : List Track) (i : ℕ),
      (setAt ts i f).map Track.id = ts.map Track.id := by
  intro ts
  induction ts with
  | nil => intro i; cases i <;> simp [setAt]
  | cons x xs ih =>
    intro i
    cases i with
    | zero => simp [setAt, hf]
    | succ n => simp [setAt, ih]

lemma applyMatches_map_id (dets : List Detection) (now : ℚ) :
    ∀ (matched : List (ℕ × ℕ)) (ts : List Track),
      (applyMatches dets now matched ts).map Track.id = ts.map Track.id := by
  intro matched
  induction matched with
  | nil => intro ts; simp [applyMatches]
  | cons p rest ih =>
    intro ts
    have h1 : applyMatches dets now (p :: rest) ts =
        applyMatches dets now rest
          (setAt ts p.1 fun tr => tr.update (dets.getD p.2 defaultDetection) now) := rfl
    rw [h1, ih, setAt_map_id]
    intro x
    rfl

lemma predict_map_id (l : List Track) :
    (l.map fun tr => (tr.predict).1).map Track.id = l.map Track.id := by
  induction l with
  | nil => rfl
  | cons x xs ih =>
    simp only [List.map_cons]
    rw [ih]
    rfl

lemma tracker_update_next_id (s : TrackerState) (dets : List Detection) (now : ℚ) :
    (tracker_update s dets now).1.next_id =
      s.next_id +
        (associate dets (s.tracks.map fun tr => (tr.predict).1)).2.1.length := by
  simp [tracker_update, spawnTracks_snd]

lemma tracker_update_snd (s : TrackerState) (dets : List Detection) (now : ℚ) :
    (tracker_update s dets now).2 =
      ((tracker_update s dets now).1.tracks.filter fun tr => min_hits ≤ tr.hits).map
        fun tr => (tr.id, tr.get_state) := rfl

lemma mem_tracker_update (s : TrackerState) (dets : List Detection) (now : ℚ)
    (tr : Track) (h : tr ∈ (tracker_update s dets now).1.tracks) :
    tr.time_since_update < max_age ∧
    (tr.id ∈ s.tracks.map Track.id ∨
      (s.next_id ≤ tr.id ∧ tr.id < (tracker_update s dets now).1.next_id)) := by
  simp only [tracker_update, List.mem_filter, List.mem_append,
    decide_eq_true_eq] at h
  obtain ⟨hmem, hage⟩ := h
  refine ⟨hage, ?_⟩
  rcases hmem with hmem | hmem
  · left
    have : tr.id ∈ (applyMatches dets now
        (associate dets (s.tracks.map fun tr => (tr.predict).1)).1
        (s.tracks.map fun tr => (tr.predict).1)).map Track.id :=
      List.mem_map_of_mem Track.id hmem
    rwa [applyMatches_map_id, predict_map_id] at this
  · right
    have hb := spawnTracks_mem_id dets now
      (associate dets (s.tracks.map fun tr => (tr.predict).1)).2.1 s.next_id tr hmem
    rw [tracker_update_next_id, ← spawnTracks_snd dets now
      (associate dets (s.tracks.map fun tr => (tr.predict).1)).2.1 s.next_id]
    rw [spawnTracks_snd]
    exact hb

lemma setAt_pres (P : Track → Prop) (f : Track → Track)
    (hf : ∀ x, P x → P (f x)) :
    ∀ (ts : List Track) (i : ℕ), (∀ x ∈ ts, P x) →
      ∀ x ∈ setAt ts i f, P x := by
  intro ts
  induction ts with
  | nil => intro i h x hx; cases i <;> simp [setAt] at hx
  | cons a as ih =>
    intro i h x hx
    cases i with
    | zero =>
      simp only [setAt, List.mem_cons] at hx
      rcases hx with hx | hx
      · exact hx ▸ hf a (h a (by simp))
      · exact h x (by simp [hx])
    | succ n =>
      simp only [setAt, List.mem_cons] at hx
      rcases hx with hx | hx
      · exact hx ▸ h a (by simp)
      · exact ih n (fun y hy => h y (by simp [hy])) x hx

lemma applyMatches_pres (P : Track → Prop) (dets : List Detection) (now : ℚ)
    (hupd : ∀ tr d, P tr → P (Track.update tr d now)) :
    ∀ (matched : List (ℕ × ℕ)) (ts : List Track), (∀ x ∈ ts, P x) →
      ∀ x ∈ applyMatches dets now matched ts, P x := by
  intro matched
  induction matched with
  | nil => intro ts h x hx; simpa [applyMatches] using h x hx
  | cons p rest ih =>
    intro ts h x hx
    have h1 : applyMatches dets now (p :: rest) ts =
        applyMatches dets now rest
          (setAt ts p.1 fun tr => tr.update (dets.getD p.2 defaultDetection) now) := rfl
    rw [h1] at hx
    exact ih _ (setAt_pres P _ (fun y hy => hupd y _ hy) ts p.1 h) x hx

lemma spawnTracks_pres (P : Track → Prop) (dets : List Detection) (now : ℚ)
    (hinit : ∀ d tid, P (Track.init d tid now)) :
    ∀ (idxs : List ℕ) (nid : ℕ),
      ∀ x ∈ (spawnTracks dets now idxs nid).1, P x := by
  intro idxs
  induction idxs with
  | nil => intro nid x hx; simp [spawnTracks] at hx
  | cons d rest ih =>
    intro nid x hx
    simp only [spawnTracks, List.mem_cons] at hx
    rcases hx with hx | hx
    · exact hx ▸ hinit _ _
    · exact ih (nid + 1) x hx

lemma tracker_update_pres (P : Track → Prop)
    (hpred : ∀ tr, P tr → P (tr.predict).1)
    (hupd : ∀ tr d now, P tr → P (Track.update tr d now))
    (hinit : ∀ d tid now, P (Track.init d tid now))
    (s : TrackerState) (dets : List Detection) (now : ℚ)
    (hs : ∀ tr ∈ s.tracks, P tr) :
    ∀ tr ∈ (tracker_update s dets now).1.tracks, P tr := by
  intro tr h
  simp only [tracker_update, List.mem_filter, List.mem_append,
    decide_eq_true_eq] at h
  obtain ⟨hmem, -⟩ := h
  rcases hmem with hmem | hmem
  · refine applyMatches_pres P dets now (fun t d ht => hupd t d now ht) _ _ ?_ tr hmem
    intro x hx
    obtain ⟨y, hy, rfl⟩ := List.mem_map.mp hx
    exact hpred y (hs y hy)
  · exact spawnTracks_pres P dets now (fun d tid => hinit d tid now) _ _ tr hmem

/-- C9: the IoU function is symmetric, equals 1 on any box of positive
area paired with itself, and equals 0 on any pair of non-overlapping
boxes (no point interior to both). -/
theorem c9_iou_properties :
    (∀ a b : Box, calculate_iou a b = calculate_iou b a) ∧
    (∀ b : Box, b.x1 < b.x2 → b.y1 < b.y2 → calculate_iou b b = 1) ∧
    (∀ a b : Box, (¬ ∃ p : ℚ × ℚ, insideBox p a ∧ insideBox p b) →
      calculate_iou a b = 0) := by
  refine ⟨?_, ?_, ?_⟩
  · intro a b
    simp only [calculate_iou]
    rw [max_comm a.x1, max_comm a.y1, min_comm a.x2, min_comm a.y2,
      add_comm ((a.x2 - a.x1) * (a.y2 - a.y1))]
  · intro b hx hy
    simp only [calculate_iou, max_self, min_self]
    have h1 : ¬ (b.x2 ≤ b.x1 ∨ b.y2 ≤ b.y1) := by
      push_neg
      exact ⟨hx, hy⟩
    rw [if_neg h1]
    have harea : 0 < (b.x2 - b.x1) * (b.y2 - b.y1) :=
      mul_pos (by linarith) (by linarith)
    have hsum : (b.x2 - b.x1) * (b.y2 - b.y1) + (b.x2 - b.x1) * (b.y2 - b.y1)
        - (b.x2 - b.x1) * (b.y2 - b.y1) = (b.x2 - b.x1) * (b.y2 - b.y1) := by
      ring
    rw [hsum, if_pos harea, div_self (ne_of_gt harea)]
  · intro a b h
    by_cases hguard : min a.x2 b.x2 ≤ max a.x1 b.x1 ∨ min a.y2 b.y2 ≤ max a.y1 b.y1
    · simp only [calculate_iou]
      rw [if_pos hguard]
    · exfalso
      push_neg at hguard
      obtain ⟨h1, h2⟩ := hguard
      apply h
      refine ⟨((max a.x1 b.x1 + min a.x2 b.x2) / 2,
               (max a.y1 b.y1 + min a.y2 b.y2) / 2), ?_, ?_⟩
      · refine ⟨?_, ?_, ?_, ?_⟩ <;> simp only []
        · have := le_max_left a.x1 b.x1
          linarith
        · have := min_le_left a.x2 b.x2
          linarith
        · have := le_max_left a.y1 b.y1
          linarith
        · have := min_le_left a.y2 b.y2
          linarith
      · refine ⟨?_, ?_, ?_, ?_⟩ <;> simp only []
        · have := le_max_right a.x1 b.x1
          linarith
        · have := min_le_right a.x2 b.x2
          linarith
        · have := le_max_right a.y1 b.y1
          linarith
        · have := min_le_right a.y2 b.y2
          linarith

/-- Witness for C9 at concrete boxes. -/
theorem c9_iou_properties_witness :
    calculate_iou ⟨0, 0, 4, 4⟩ ⟨1, 1, 3, 5⟩ = calculate_iou ⟨1, 1, 3, 5⟩ ⟨0, 0, 4, 4⟩ ∧
    calculate_iou ⟨0, 0, 2, 2⟩ ⟨0, 0, 2, 2⟩ = 1 ∧
    calculate_iou ⟨0, 0, 2, 2⟩ ⟨3, 3, 4, 4⟩ = 0 :=
  ⟨c9_iou_properties.1 ⟨0, 0, 4, 4⟩ ⟨1, 1, 3, 5⟩,
   c9_iou_properties.2.1 ⟨0, 0, 2, 2⟩ (by norm_num) (by norm_num),
   c9_iou_properties.2.2 ⟨0, 0, 2, 2⟩ ⟨3, 3, 4, 4⟩ (by
     rintro ⟨p, ⟨-, hpa, -, -⟩, ⟨hpc, -, -, -⟩⟩
     simp only [] at hpa hpc
     linarith)⟩

lemma lsa_rows_zero (cost : ℕ → ℕ → ℚ) (m : ℕ) :
    linear_sum_assignment cost 0 m = [] := by
  simp [linear_sum_assignment, injSeqs, argmaxBy]

lemma lsa_cols_zero (cost : ℕ → ℕ → ℚ) (n : ℕ) :
    linear_sum_assignment cost n 0 = [] := by
  rcases Nat.eq_zero_or_pos n with h | h
  · subst h
    exact lsa_rows_zero cost 0
  · simp [linear_sum_assignment, injSeqs, argmaxBy, Nat.le_zero, h.ne']

lemma samplePredicted_eq :
    sampleState.tracks.map (fun tr => (tr.predict).1) = samplePredicted := rfl

lemma samplePredicted_length : samplePredicted.length = 1 := rfl

lemma applyMatches_nil (dets : List Detection) (now : ℚ) (ts : List Track) :
    applyMatches dets now [] ts = ts := rfl

lemma assocAssignment_sampleA :
    assocAssignment [sampleDetA] samplePredicted = [(0, 0)] := rfl

lemma assocAssignment_sampleB :
    assocAssignment [sampleDetB] samplePredicted = [(0, 0)] := rfl

lemma assocCost_sampleA : assocCost [sampleDetA] samplePredicted 0 0 = 1 := by
  show calculate_iou ⟨0, 0, 1, 1⟩ ⟨0, 0, 1, 1⟩ = 1
  norm_num [calculate_iou, min_def, max_def]

lemma assocCost_sampleB : assocCost [sampleDetB] samplePredicted 0 0 = 0 := by
  show calculate_iou ⟨0, 0, 1, 1⟩ ⟨2, 2, 3, 3⟩ = 0
  norm_num [calculate_iou, min_def, max_def]

lemma associate_sampleA :
    associate [sampleDetA] samplePredicted = ([(0, 0)], [], []) := by
  have hc := assocCost_sampleA
  simp only [associate, samplePredicted_length, assocAssignment_sampleA]
  norm_num [iou_threshold, hc, List.range_succ]

lemma associate_sampleB :
    associate [sampleDetB] samplePredicted = ([], [], []) := by
  have hc := assocCost_sampleB
  simp only [associate, samplePredicted_length, assocAssignment_sampleB]
  norm_num [iou_threshold, hc, List.range_succ]

/-- C1 (amended): every (track, detection) pair retained as a match by the
association step has IoU strictly above 0.3; but a pair of the optimal
assignment that is discarded for IoU ≤ 0.3 is treated as neither matched
nor unmatched — the pair is dropped from the matched list while its
detection index is excluded from the unmatched-detections list and its
track index from the unmatched-tracks list (so the detection spawns no new
track: `next_id` grows by exactly the number of unmatched detections). -/
theorem c1_association_threshold_amended :
    (∀ (dets : List Detection) (trks : List Track) (p : ℕ × ℕ),
      p ∈ (associate dets trks).1 →
        iou_threshold < assocCost dets trks p.1 p.2) ∧
    (∀ (dets : List Detection) (trks : List Track) (p : ℕ × ℕ),
      p ∈ assocAssignment dets trks →
      assocCost dets trks p.1 p.2 ≤ iou_threshold →
        p ∉ (associate dets trks).1 ∧
        p.2 ∉ (associate dets trks).2.1 ∧
        p.1 ∉ (associate dets trks).2.2) ∧
    (∀ (s : TrackerState) (dets : List Detection) (now : ℚ),
      (tracker_update s dets now).1.next_id =
        s.next_id +
          (associate dets (s.tracks.map fun tr => (tr.predict).1)).2.1.length) := by
  refine ⟨?_, ?_, tracker_update_next_id⟩
  · intro dets trks p hp
    simp only [associate] at hp
    split_ifs at hp with h1 h2 h3
    · simp at hp
    · simp at hp
    · simp only [List.mem_filter, decide_eq_true_eq] at hp
      exact hp.2
    · simp at hp
  · intro dets trks p hass hle
    simp only [associate]
    split_ifs with h1 h2 h3
    · rw [assocAssignment, h1, lsa_rows_zero] at hass
      simp at hass
    · rw [assocAssignment, h2, lsa_cols_zero] at hass
      simp at hass
    · refine ⟨?_, ?_, ?_⟩
      · intro hmem
        simp only [List.mem_filter, decide_eq_true_eq] at hmem
        exact absurd hmem.2 (not_lt.mpr hle)
      · intro hmem
        simp only [List.mem_filter, Bool.not_eq_true'] at hmem
        have hc : ((assocAssignment dets trks).map Prod.snd).contains p.2 = true :=
          List.elem_iff.mpr (List.mem_map_of_mem Prod.snd hass)
        rw [hmem.2] at hc
        simp at hc
      · intro hmem
        simp only [List.mem_filter, Bool.not_eq_true'] at hmem
        have hc : ((assocAssignment dets trks).map Prod.fst).contains p.1 = true :=
          List.elem_iff.mpr (List.mem_map_of_mem Prod.fst hass)
        rw [hmem.2] at hc
        simp at hc
    · exact absurd (lt_min_iff.mpr
        ⟨Nat.pos_of_ne_zero h1, Nat.pos_of_ne_zero h2⟩) h3

/-- Counterexample to C1 as stated: one track with box (0,0,1,1) and one
detection with box (2,2,3,3).  The optimal assignment pairs them, the pair
is discarded (IoU = 0 ≤ 0.3), yet the detection is NOT listed as unmatched
(so it spawns no new track — `next_id` stays put) and the track is not
listed as unmatched either. -/
theorem c1_discarded_pair_counterexample :
    assocAssignment [sampleDetB] samplePredicted = [(0, 0)] ∧
    assocCost [sampleDetB] samplePredicted 0 0 ≤ iou_threshold ∧
    (associate [sampleDetB] samplePredicted).1 = [] ∧
    (associate [sampleDetB] samplePredicted).2.1 = [] ∧
    (associate [sampleDetB] samplePredicted).2.2 = [] ∧
    (tracker_update sampleState [sampleDetB] 7).1.next_id = sampleState.next_id ∧
    (tracker_update sampleState [sampleDetB] 7).1.tracks.map Track.id = [1] := by
  refine ⟨assocAssignment_sampleB, ?_, ?_, ?_, ?_, ?_, ?_⟩
  · norm_num [assocCost_sampleB, iou_threshold]
  · rw [associate_sampleB]
  · rw [associate_sampleB]
  · rw [associate_sampleB]
  · rw [tracker_update_next_id, samplePredicted_eq, associate_sampleB]
    rfl
  · show ((applyMatches [sampleDetB] 7 (associate [sampleDetB] samplePredicted).1
        samplePredicted ++
        (spawnTracks [sampleDetB] 7 (associate [sampleDetB] samplePredicted).2.1
          sampleState.next_id).1).filter
        fun tr => tr.time_since_update < max_age).map Track.id = [1]
    rw [associate_sampleB, applyMatches_nil]
    simp [spawnTracks, samplePredicted, sampleState, Track.predict, Track.init,
      max_age]

/-- Witness for C1 (amended) at concrete inputs: a retained overlapping
pair, a discarded disjoint pair, and the `next_id` accounting. -/
theorem c1_association_threshold_amended_witness :
    ((0, 0) ∈ (associate [sampleDetA] samplePredicted).1 ∧
      iou_threshold < assocCost [sampleDetA] samplePredicted 0 0) ∧
    ((0, 0) ∈ assocAssignment [sampleDetB] samplePredicted ∧
      assocCost [sampleDetB] samplePredicted 0 0 ≤ iou_threshold ∧
      ((0, 0) ∉ (associate [sampleDetB] samplePredicted).1 ∧
        (0 : ℕ) ∉ (associate [sampleDetB] samplePredicted).2.1 ∧
        (0 : ℕ) ∉ (associate [sampleDetB] samplePredicted).2.2)) ∧
    (tracker_update sampleState [sampleDetB] 7).1.next_id =
      sampleState.next_id +
        (associate [sampleDetB]
          (sampleState.tracks.map fun tr => (tr.predict).1)).2.1.length :=
  ⟨⟨by simp [associate_sampleA], c1_association_threshold_amended.1 [sampleDetA]
      samplePredicted (0, 0) (by simp [associate_sampleA])⟩,
   ⟨by simp [assocAssignment_sampleB], by norm_num [assocCost_sampleB, iou_threshold],
    c1_association_threshold_amended.2.1 [sampleDetB] samplePredicted
      (0, 0) (by simp [assocAssignment_sampleB])
      (by norm_num [assocCost_sampleB, iou_threshold])⟩,
   c1_association_threshold_amended.2.2 sampleState [sampleDetB] 7⟩

/-- C2: the mapping returned by `Tracker.update` contains exactly those
tracks of the post-invocation active set whose `hits ≥ 3` (keyed by track
id, with their snapshots), with no condition on `time_since_update`; in
particular tracks with `hits < 3` never appear. -/
theorem c2_confirmed_tracks_output (s : TrackerState) (dets : List Detection)
    (now : ℚ) (p : ℕ × Snapshot) :
    p ∈ (tracker_update s dets now).2 ↔
      ∃ tr ∈ (tracker_update s dets now).1.tracks,
        min_hits ≤ tr.hits ∧ p = (tr.id, tr.get_state) := by
  rw [tracker_update_snd]
  simp only [List.mem_map, List.mem_filter, decide_eq_true_eq]
  constructor
  · rintro ⟨tr, ⟨h1, h2⟩, h3⟩
    exact ⟨tr, h1, h2, h3.symm⟩
  · rintro ⟨tr, h1, h2, h3⟩
    exact ⟨tr, ⟨h1, h2⟩, h3.symm⟩

/-- C3: after every invocation no track with `time_since_update ≥ 30`
remains in the active set; every returned key is the id of an active
track; and removal is monotonic: starting from a state whose track ids
all lie below `next_id`, an id `r` below `next_id` that is absent from
the active set stays absent through any further sequence of invocations
(new tracks always take fresh, strictly larger ids). -/
theorem c3_removal_and_monotonic_ids :
    (∀ (s : TrackerState) (dets : List Detection) (now : ℚ),
      ∀ tr ∈ (tracker_update s dets now).1.tracks,
        tr.time_since_update < max_age) ∧
    (∀ (s : TrackerState) (dets : List Detection) (now : ℚ)
        (p : ℕ × Snapshot), p ∈ (tracker_update s dets now).2 →
      ∃ tr ∈ (tracker_update s dets now).1.tracks, p.1 = tr.id) ∧
    (∀ (s : TrackerState) (r : ℕ) (script : List (List Detection × ℚ)),
      (∀ tr ∈ s.tracks, tr.id < s.next_id) → r < s.next_id →
      (∀ tr ∈ s.tracks, tr.id ≠ r) →
      ∀ tr ∈ (tracker_run s script).tracks, tr.id ≠ r) := by
  refine ⟨?_, ?_, ?_⟩
  · intro s dets now tr h
    exact (mem_tracker_update s dets now tr h).1
  · intro s dets now p hp
    rw [tracker_update_snd] at hp
    simp only [List.mem_map, List.mem_filter, decide_eq_true_eq] at hp
    obtain ⟨tr, ⟨h1, h2⟩, h3⟩ := hp
    exact ⟨tr, h1, by rw [← h3]⟩
  · intro s r script
    induction script generalizing s with
    | nil => intro hinv hr habs tr h; exact habs tr h
    | cons step rest ih =>
      intro hinv hr habs tr h
      obtain ⟨dets, now⟩ := step
      simp only [tracker_run] at h
      have hmono : s.next_id ≤ (tracker_update s dets now).1.next_id := by
        rw [tracker_update_next_id]
        exact Nat.le_add_right _ _
      have hinv1 : ∀ t ∈ (tracker_update s dets now).1.tracks,
          t.id < (tracker_update s dets now).1.next_id := by
        intro t ht
        rcases (mem_tracker_update s dets now t ht).2 with hold | hnew
        · obtain ⟨t0, ht0, hid⟩ := List.mem_map.mp hold
          exact lt_of_lt_of_le (hid ▸ hinv t0 ht0) hmono
        · exact hnew.2
      have habs1 : ∀ t ∈ (tracker_update s dets now).1.tracks, t.id ≠ r := by
        intro t ht
        rcases (mem_tracker_update s dets now t ht).2 with hold | hnew
        · obtain ⟨t0, ht0, hid⟩ := List.mem_map.mp hold
          exact hid ▸ habs t0 ht0
        · omega
      exact ih _ hinv1 (lt_of_lt_of_le hr hmono) habs1 tr h

/-- Witness for C3 on a concrete one-step run from the initial state. -/
theorem c3_removal_and_monotonic_ids_witness :
    (∀ tr ∈ tracker_init.tracks, tr.id < tracker_init.next_id) ∧
    0 < tracker_init.next_id ∧
    (∀ tr ∈ tracker_init.tracks, tr.id ≠ 0) ∧
    (Track.init sampleDetA 1 0).id ≠ 0 :=
  ⟨by simp [tracker_init], by decide, by simp [tracker_init],
   c3_removal_and_monotonic_ids.2.2 tracker_init 0 [([sampleDetA], 0)]
     (by simp [tracker_init]) (by decide) (by simp [tracker_init])
     (Track.init sampleDetA 1 0) (List.mem_singleton.mpr rfl)⟩

/-- C4: `hit_streak` starts at 1 on creation, is incremented by exactly 1
(together with `hits`) on every measurement update, is untouched by
`predict`, and is never reset: on every state reachable from the initial
tracker state, `hit_streak = hits` for every active track. -/
theorem c4_hit_streak_equals_hits :
    (∀ (d : Detection) (tid : ℕ) (now : ℚ),
      (Track.init d tid now).hit_streak = 1 ∧ (Track.init d tid now).hits = 1) ∧
    (∀ (tr : Track) (d : Detection) (now : ℚ),
      (Track.update tr d now).hit_streak = tr.hit_streak + 1 ∧
      (Track.update tr d now).hits = tr.hits + 1) ∧
    (∀ tr : Track, (tr.predict).1.hit_streak = tr.hit_streak ∧
      (tr.predict).1.hits = tr.hits) ∧
    (∀ script : List (List Detection × ℚ),
      ∀ tr ∈ (tracker_run tracker_init script).tracks,
        tr.hit_streak = tr.hits) := by
  refine ⟨fun d tid now => ⟨rfl, rfl⟩, fun tr d now => ⟨rfl, rfl⟩,
    fun tr => ⟨rfl, rfl⟩, ?_⟩
  intro script
  suffices h : ∀ s : TrackerState, (∀ tr ∈ s.tracks, tr.hit_streak = tr.hits) →
      ∀ tr ∈ (tracker_run s script).tracks, tr.hit_streak = tr.hits by
    exact h tracker_init (by simp [tracker_init])
  induction script with
  | nil => intro s hs tr h; exact hs tr h
  | cons step rest ih =>
    intro s hs tr h
    obtain ⟨dets, now⟩ := step
    simp only [tracker_run] at h
    refine ih _ ?_ tr h
    exact tracker_update_pres (fun t => t.hit_streak = t.hits) (fun t ht => ht)
      (fun t d n ht => by
        show t.hit_streak + 1 = t.hits + 1
        rw [ht])
      (fun d tid n => rfl) s dets now hs

/-- Witness for C4 on a concrete one-step run. -/
theorem c4_hit_streak_equals_hits_witness :
    (Track.init sampleDetA 1 0).hit_streak = 1 ∧
    (Track.init sampleDetA 1 0).hit_streak = (Track.init sampleDetA 1 0).hits :=
  ⟨(c4_hit_streak_equals_hits.1 sampleDetA 1 0).1,
   c4_hit_streak_equals_hits.2.2.2 [([sampleDetA], 0)]
     (Track.init sampleDetA 1 0) (List.mem_singleton.mpr rfl)⟩

/-- C5: `predict_trajectory` returns the `insufficient_data` status value
iff the snapshot's history has fewer than 5 entries (and a success record
otherwise — the embedded function is total, so the status is an ordinary
result value, not a failure, and no forecast is produced in that case). -/
theorem c5_insufficient_data_iff (fb : ℚ × ℚ) (track : Snapshot) (r_x r_y : ℚ) :
    predict_trajectory fb track r_x r_y = PredResult.insufficient_data ↔
      track.history.length < min_history_points := by
  constructor
  · intro h
    by_contra hlen
    simp only [predict_trajectory] at h
    rw [if_neg hlen] at h
    simp only [linear_prediction, List.length_map] at h
    rw [if_neg (by simp only [min_history_points] at hlen; omega :
      ¬ track.history.length < 3)] at h
    simp only [kalman_prediction, combine_predictions] at h
    split_ifs at h
  · intro h
    simp only [predict_trajectory]
    rw [if_pos h]

/-- C10: with at least 5 history entries, `predict_trajectory` always
returns a success tagged `combined`: the constant-velocity forecast
unconditionally succeeds with fixed confidence 0.8, so the one-sided
fusion branches (`linear` / `kalman`) and the zero-total-weight fallback
are unreachable through the public interface. -/
theorem c10_always_combined (fb : ℚ × ℚ) (track : Snapshot) (r_x r_y : ℚ)
    (h : min_history_points ≤ track.history.length) :
    (∃ k : Pred, kalman_prediction fb track = PredResult.success k ∧
      k.confidence = 4 / 5) ∧
    ∃ p : Pred, predict_trajectory fb track r_x r_y = PredResult.success p ∧
      p.method = Method.combined := by
  refine ⟨⟨_, rfl, rfl⟩, ?_⟩
  simp only [predict_trajectory]
  rw [if_neg (by omega : ¬ track.history.length < min_history_points)]
  simp only [linear_prediction, List.length_map]
  rw [if_neg (by simp only [min_history_points] at h; omega :
    ¬ track.history.length < 3)]
  simp only [kalman_prediction, combine_predictions]
  rw [if_neg (by positivity : ¬ (min |r_x| |r_y| + 4 / 5 = 0))]
  exact ⟨_, rfl, rfl⟩

/-- Witness for C10 at a concrete 5-entry snapshot. -/
theorem c10_always_combined_witness :
    min_history_points ≤ sampleSnap.history.length ∧
    ∃ p : Pred,
      predict_trajectory (1280, 720) sampleSnap (1 / 2) (1 / 2) =
        PredResult.success p ∧ p.method = Method.combined :=
  ⟨by norm_num [sampleSnap, min_history_points],
   (c10_always_combined (1280, 720) sampleSnap (1 / 2) (1 / 2)
     (by norm_num [sampleSnap, min_history_points])).2⟩

/-- C6: when both forecasts succeed (with nonnegative confidences, as
always holds in the program: min(|r_x|,|r_y|) ≥ 0 and 0.8), the fused
impact point and time-to-impact are copied wholesale from the forecast
with the strictly larger normalized weight, and from the constant-velocity
forecast at equal weights; they are never averaged. -/
theorem c6_impact_from_heavier (l k : Pred)
    (hl : 0 ≤ l.confidence) (hk : 0 ≤ k.confidence) :
    ∃ c : Pred,
      combine_predictions (PredResult.success l) (PredResult.success k) =
        PredResult.success c ∧
      (k.confidence / (l.confidence + k.confidence) <
          l.confidence / (l.confidence + k.confidence) →
        c.impact_point = l.impact_point ∧
        c.time_to_impact = l.time_to_impact) ∧
      (l.confidence / (l.confidence + k.confidence) ≤
          k.confidence / (l.confidence + k.confidence) →
        c.impact_point = k.impact_point ∧
        c.time_to_impact = k.time_to_impact) := by
  by_cases h0 : l.confidence + k.confidence = 0
  · refine ⟨k, ?_, ?_, ?_⟩
    · simp only [combine_predictions]
      rw [if_pos h0]
    · intro hlt
      rw [h0] at hlt
      simp at hlt
    · intro _
      exact ⟨rfl, rfl⟩
  · have himp : ∀ c : Pred,
        combine_predictions (PredResult.success l) (PredResult.success k) =
          PredResult.success c →
        c.impact_point = (if k.confidence / (l.confidence + k.confidence) <
            l.confidence / (l.confidence + k.confidence) then l.impact_point
          else k.impact_point) ∧
        c.time_to_impact = (if k.confidence / (l.confidence + k.confidence) <
            l.confidence / (l.confidence + k.confidence) then l.time_to_impact
          else k.time_to_impact) := by
      intro c hcc
      simp only [combine_predictions] at hcc
      rw [if_neg h0] at hcc
      injection hcc with hcc
      subst hcc
      exact ⟨rfl, rfl⟩
    have hex : ∃ c : Pred,
        combine_predictions (PredResult.success l) (PredResult.success k) =
          PredResult.success c := by
      simp only [combine_predictions]
      rw [if_neg h0]
      exact ⟨_, rfl⟩
    obtain ⟨c, hc⟩ := hex
    obtain ⟨hci, hct⟩ := himp c hc
    refine ⟨c, hc, ?_, ?_⟩
    · intro hlt
      rw [hci, hct, if_pos hlt, if_pos hlt]
      exact ⟨rfl, rfl⟩
    · intro hle
      rw [hci, hct, if_neg (not_lt.mpr hle), if_neg (not_lt.mpr hle)]
      exact ⟨rfl, rfl⟩

/-- Witness for C6 at concrete forecast records (the linear one heavier). -/
theorem c6_impact_from_heavier_witness :
    0 ≤ samplePredL.confidence ∧ 0 ≤ samplePredK.confidence ∧
    ∃ c : Pred,
      combine_predictions (PredResult.success samplePredL)
          (PredResult.success samplePredK) =
        PredResult.success c ∧
      (samplePredK.confidence /
          (samplePredL.confidence + samplePredK.confidence) <
          samplePredL.confidence /
            (samplePredL.confidence + samplePredK.confidence) →
        c.impact_point = samplePredL.impact_point ∧
        c.time_to_impact = samplePredL.time_to_impact) ∧
      (samplePredL.confidence /
          (samplePredL.confidence + samplePredK.confidence) ≤
          samplePredK.confidence /
            (samplePredL.confidence + samplePredK.confidence) →
        c.impact_point = samplePredK.impact_point ∧
        c.time_to_impact = samplePredK.time_to_impact) :=
  ⟨by norm_num [samplePredL], by norm_num [samplePredK],
   c6_impact_from_heavier samplePredL samplePredK
     (by norm_num [samplePredL]) (by norm_num [samplePredK])⟩

/-- C7 (amended): with |vx| < 1e-6 and |vy| < 1e-6 the impact point is the
current position unchanged.  The time-to-impact at that impact point is +∞
only when moreover vx² + vy² ≤ 1e-12 (in particular at velocity (0,0));
when the speed still exceeds the 1e-6 cutoff (possible diagonally), the
fallback instead returns distance/speed = √0 = 0, which is finite. -/
theorem c7_zero_velocity_amended (fb pos : ℚ × ℚ) (vx vy : ℚ)
    (hx : |vx| < 1 / 1000000) (hy : |vy| < 1 / 1000000) :
    calculate_impact_point fb pos (vx, vy) = pos ∧
    (vx ^ 2 + vy ^ 2 ≤ 1 / 10 ^ 12 →
      calculate_time_to_impact pos (vx, vy) pos = TTI.inf) ∧
    (1 / 10 ^ 12 < vx ^ 2 + vy ^ 2 →
      calculate_time_to_impact pos (vx, vy) pos = TTI.sqrtVal 0) := by
  refine ⟨?_, ?_, ?_⟩
  · simp only [calculate_impact_point]
    rw [if_pos ⟨hx, hy⟩]
  · intro hsp
    simp only [calculate_time_to_impact]
    rw [show pos.1 - pos.1 = 0 from sub_self _,
      show pos.2 - pos.2 = 0 from sub_self _]
    by_cases h1 : |vy| < |vx|
    · rw [if_pos h1, if_neg (not_lt.mpr hx.le), if_neg (not_lt.mpr hsp)]
    · rw [if_neg h1, if_neg (not_lt.mpr hy.le), if_neg (not_lt.mpr hsp)]
  · intro hsp
    simp only [calculate_time_to_impact]
    rw [show pos.1 - pos.1 = 0 from sub_self _,
      show pos.2 - pos.2 = 0 from sub_self _]
    by_cases h1 : |vy| < |vx|
    · rw [if_pos h1, if_neg (not_lt.mpr hx.le), if_pos hsp]
      norm_num
    · rw [if_neg h1, if_neg (not_lt.mpr hy.le), if_pos hsp]
      norm_num

/-- Counterexample to C7 as stated: the velocity (9e-7, 9e-7) has both
components below 1e-6 in absolute value and the impact point is the
position unchanged, yet the time-to-impact is the fallback value
√0 = 0 — the Euclidean speed ≈ 1.27e-6 exceeds the 1e-6 cutoff — and
not positive infinity. -/
theorem c7_zero_velocity_counterexample :
    |(9 : ℚ) / 10000000| < 1 / 1000000 ∧
    calculate_impact_point (1280, 720) (100, 100)
      (9 / 10000000, 9 / 10000000) = (100, 100) ∧
    calculate_time_to_impact (100, 100) (9 / 10000000, 9 / 10000000)
      (100, 100) = TTI.sqrtVal 0 ∧
    TTI.sqrtVal 0 ≠ TTI.inf := by
  have h9 : |(9 : ℚ) / 10000000| = 9 / 10000000 := abs_of_pos (by norm_num)
  refine ⟨?_, ?_, ?_, ?_⟩
  · rw [h9]
    norm_num
  · simp only [calculate_impact_point]
    rw [if_pos ⟨by rw [h9]; norm_num, by rw [h9]; norm_num⟩]
  · norm_num [calculate_time_to_impact, h9]
  · simp

/-- Witness for C7 (amended) at the diagonal near-zero velocity. -/
theorem c7_zero_velocity_amended_witness :
    |(9 : ℚ) / 10000000| < 1 / 1000000 ∧
    (1 : ℚ) / 10 ^ 12 < (9 / 10000000) ^ 2 + (9 / 10000000) ^ 2 ∧
    calculate_impact_point (1280, 720) (100, 100)
      (9 / 10000000, 9 / 10000000) = (100, 100) ∧
    calculate_time_to_impact (100, 100) (9 / 10000000, 9 / 10000000)
      (100, 100) = TTI.sqrtVal 0 :=
  ⟨by rw [abs_of_pos (by norm_num)]; norm_num, by norm_num,
   (c7_zero_velocity_amended (1280, 720) (100, 100) (9 / 10000000) (9 / 10000000)
     (by rw [abs_of_pos (by norm_num)]; norm_num)
     (by rw [abs_of_pos (by norm_num)]; norm_num)).1,
   (c7_zero_velocity_amended (1280, 720) (100, 100) (9 / 10000000) (9 / 10000000)
     (by rw [abs_of_pos (by norm_num)]; norm_num)
     (by rw [abs_of_pos (by norm_num)]; norm_num)).2.2 (by norm_num)⟩

/-- C8: on the default 1280×720 frame, from position (100,100) with
velocity (10,0), the impact point is the right edge (1280, 100) and the
time-to-impact is exactly the finite value 118, which is positive. -/
theorem c8_right_edge_impact :
    calculate_impact_point frame_bounds (100, 100) (10, 0) = (1280, 100) ∧
    calculate_time_to_impact (100, 100) (10, 0) (1280, 100) = TTI.val 118 ∧
    (0 : ℚ) < 118 := by
  have h10 : |(10 : ℚ)| = 10 := abs_of_pos (by norm_num)
  refine ⟨?_, ?_, by norm_num⟩
  · norm_num [calculate_impact_point, frame_bounds, h10]
  · norm_num [calculate_time_to_impact, h10]

end MTS
